import Mathlib

/-!
Verification of the `uci` Ansible module (`plugins/modules/uci.py`) against its
natural-language specification.  The module is embedded shallowly: Python
functions become Lean functions, the process-global mutable state (the
class-level `UciContext.commands` list) becomes an explicitly threaded
`Process` value, and the external invocations actually executed through
`module.run_command` are collected in an explicit trace.
-/

namespace Uci

/-- A UCI option value as it appears in the module's `options` / `find`
dictionaries: either a scalar string or an ordered list of strings
(the module documentation: "If your option is an uci list write it simply
as a list", "Lists are compared in order"). -/
inductive UciValue
  | scalar (s : String)
  | strList (l : List String)
deriving DecidableEq, Repr

/-- The `state` parameter: choices `[present, absent]` (the `PRESENT` /
`ABSENT` constants of `uci.py`). -/
inductive UciState
  | present
  | absent
deriving DecidableEq, Repr

/-- The module parameters after `AnsibleModule` validation, defaults applied
(argument spec declared in `create_context`, `uci.py` lines 193–214).
`section` and `type` are Lean keywords, hence `sectionName` / `typeName`. -/
structure Params where
  state : UciState := UciState.present
  config : String
  sectionName : Option String := none
  typeName : Option String := none
  options : Option (List (String × UciValue)) := none
  position : Option Int := none
  replace : Bool := false
  find : Option (List (String × UciValue)) := none
  set_find : Bool := false
  commit : Bool := false
deriving DecidableEq, Repr

/-- Raw module arguments as supplied by the caller, before `AnsibleModule`
validation: every field may be absent. -/
structure RawArgs where
  state : Option String := none
  config : Option String := none
  sectionName : Option String := none
  typeName : Option String := none
  options : Option (List (String × UciValue)) := none
  position : Option Int := none
  replace : Option Bool := none
  find : Option (List (String × UciValue)) := none
  set_find : Option Bool := none
  commit : Option Bool := none
deriving DecidableEq, Repr

/-- Embeds `AnsibleModule` argument validation for the argument spec declared in
`create_context` (`uci.py` 193–214): `config` is `required=True`, `state` has
`choices=[PRESENT, ABSENT]` with default `present`, the booleans default to
`False`.  The relational constraints (`mutually_exclusive`,
`required_together`, `required_one_of`, `required_if`, `required_by`) are
commented out in the source, so no combination of present/absent fields is
rejected beyond the above. -/
def validateArgs (a : RawArgs) : Except String Params := do
  let cfg ← match a.config with
    | some c => pure c
    | none => throw "missing required arguments: config"
  let st ← match a.state with
    | none => pure UciState.present
    | some s =>
      if s = "present" then pure UciState.present
      else if s = "absent" then pure UciState.absent
      else throw "value of state must be one of: present, absent"
  pure { state := st, config := cfg, sectionName := a.sectionName,
         typeName := a.typeName, options := a.options, position := a.position,
         replace := a.replace.getD false, find := a.find,
         set_find := a.set_find.getD false, commit := a.commit.getD false }

/-- Process-wide mutable state: `UciContext.commands` is declared as a
class-level list (`uci.py` line 129), is mutated in place by `run_command`
(`ctx.commands.append`) and is never rebound on an instance, so a single list
object is shared by every `UciContext` created in the process. -/
structure Process where
  commands : List String
deriving DecidableEq, Repr

/-- The trace of external invocations actually executed through
`module.run_command`; each entry is the argv list passed to it. -/
abbrev Exec := List (List String)

/-- Result of `module.get_bin_path("uci", required=True)`, as mocked in the
unit tests. -/
def ucibin : String := "/usr/bin/uci"

/-- Per-instance state of `UciContext`.  `changes_before` and
`changes_after` are rebound per instance (`self.changes_before = ...` in
`__init__`, `self.changes_after = ...` in `has_changed`), unlike the shared
`commands` list which lives in `Process`.  `checkMode` mirrors
`module.check_mode`. -/
structure UciContext where
  params : Params
  checkMode : Bool
  changes_before : List String := []
  changes_after : List String := []
deriving DecidableEq, Repr

/-- Embeds `UciContext.__init__` (`uci.py` 131–139): executes
`uci changes <config>` directly via `module.run_command` (so it runs even in
check mode) and stores its stdout lines as `changes_before`; `beforeOut` is
that stdout, already split into lines.  The shared `commands` list is not
touched. -/
def newContext (p : Params) (checkMode : Bool) (beforeOut : List String)
    (ex : Exec) : UciContext × Exec :=
  ({ params := p, checkMode := checkMode, changes_before := beforeOut },
   ex ++ [[ucibin, "changes", p.config]])

/-- Embeds `run_command` (`uci.py` 217–221): prepends the uci binary to the given
args, appends the space-joined command string to the shared `commands` list,
and executes the argv only when not in check mode. -/
def run_command (ctx : UciContext) (proc : Process) (ex : Exec)
    (args : List String) : Process × Exec :=
  let command_array := ucibin :: args
  let proc2 : Process :=
    { commands := proc.commands ++ [String.intercalate " " command_array] }
  if ctx.checkMode then (proc2, ex) else (proc2, ex ++ [command_array])

/-- Embeds `UciContext.has_changed` (`uci.py` 185–190): executes
`uci changes <config>` directly (again even in check mode), stores its stdout
lines (`afterOut`) as `changes_after`, and returns whether the shared
`commands` list is nonempty. -/
def has_changed (ctx : UciContext) (proc : Process) (ex : Exec)
    (afterOut : List String) : UciContext × Exec × Bool :=
  ({ ctx with changes_after := afterOut },
   ex ++ [[ucibin, "changes", ctx.params.config]],
   decide (proc.commands.length > 0))

/-- Embeds `do_commit` (`uci.py` 224–227): when the `commit` parameter is true,
sequence `commit <config>` through `run_command`. -/
def do_commit (ctx : UciContext) (proc : Process) (ex : Exec) :
    Process × Exec :=
  if ctx.params.commit then run_command ctx proc ex ["commit", ctx.params.config]
  else (proc, ex)

/-- The fields passed to `module.exit_json` by `main`. -/
structure UciResult where
  changed : Bool
  changes_before : List String
  changes_after : List String
  uci_commands : List String
deriving DecidableEq, Repr

/-- Embeds `main` (`uci.py` 229–247), success path (every external call returns
rc = 0, as `check_rc=True` aborts otherwise): build the context (which runs
the changes-before probe), dispatch on `state` (`present` → sequence
`show <config>`, `absent` → sequence `changes <config>`), compute `changed`
via `has_changed`, run `do_commit`, and exit with
`(changed, changes_before, changes_after, uci_commands)`.
`proc` is the process-wide shared command accumulator, `beforeOut` /
`afterOut` the stdout lines of the two `uci changes` probes. -/
def uciMain (proc : Process) (p : Params) (checkMode : Bool)
    (beforeOut afterOut : List String) : Process × Exec × UciResult :=
  let (ctx, ex1) := newContext p checkMode beforeOut []
  let (proc2, ex2) :=
    match p.state with
    | UciState.present => run_command ctx proc ex1 ["show", p.config]
    | UciState.absent => run_command ctx proc ex1 ["changes", p.config]
  let (ctx3, ex3, changed) := has_changed ctx proc2 ex2 afterOut
  let (proc4, ex4) := do_commit ctx3 proc2 ex3
  (proc4, ex4,
   { changed := changed, changes_before := ctx3.changes_before,
     changes_after := ctx3.changes_after, uci_commands := proc4.commands })

/-- Embeds `create_context` followed by `main` from raw arguments: `AnsibleModule`
validation first, then the run; a validation failure is surfaced before any
store interaction. -/
def uciMainRaw (proc : Process) (a : RawArgs) (checkMode : Bool)
    (beforeOut afterOut : List String) :
    Except String (Process × Exec × UciResult) := do
  let p ← validateArgs a
  pure (uciMain proc p checkMode beforeOut afterOut)

/-- The uci verb sequenced by `main`'s dispatch on `state`:
`show` for `present`, `changes` for `absent`. -/
def stateVerb : UciState → String
  | UciState.present => "show"
  | UciState.absent => "changes"

/-- Store-mutating uci verbs, from the operation grammar of the spec (§6):
`add`, `set`, `add_list`, `del_list`, `delete`, `reorder` and `commit` mutate
the store; `changes` and `show` only read it. -/
def mutatingVerbs : List String :=
  ["add", "set", "add_list", "del_list", "delete", "reorder", "commit"]

/-- Whether an argv invocation (binary, verb, args…) mutates the store. -/
def isMutatingArgv (cmd : List String) : Bool :=
  match cmd with
  | _ :: verb :: _ => mutatingVerbs.contains verb
  | _ => false

/-- Split a list of characters at every occurrence of `c` (auxiliary for
`splitOnChar`, structurally recursive so that concrete instances reduce). -/
def splitOnCharAux (c : Char) : List Char → List Char → List (List Char)
  | [], acc => [acc.reverse]
  | x :: xs, acc =>
      if x = c then acc.reverse :: splitOnCharAux c xs []
      else splitOnCharAux c xs (x :: acc)

/-- Split a string at every occurrence of the character `c` (the behaviour of
Python's `str.split(c)` on the simple separator-free tokens appearing in uci
invocations). -/
def splitOnChar (c : Char) (s : String) : List String :=
  (splitOnCharAux c s.data []).map (fun l => String.mk l)

/-- Whether a recorded command string (as stored in `UciContext.commands`,
e.g. `/usr/bin/uci show network`) is a mutating invocation. -/
def isMutatingCmd (s : String) : Bool := isMutatingArgv (splitOnChar ' ' s)

/-- The option map of a single store section. -/
abbrev SectionOptions := List (String × UciValue)

/-- Look up an option's current value in a section. -/
def getOpt (so : SectionOptions) (k : String) : Option UciValue :=
  (so.find? (fun kv => kv.1 == k)).map (fun kv => kv.2)

/-- Set an option to a value, replacing any previous binding. -/
def setOpt (so : SectionOptions) (k : String) (v : UciValue) : SectionOptions :=
  if (so.find? (fun kv => kv.1 == k)).isSome then
    so.map (fun kv => if kv.1 == k then (k, v) else kv)
  else so ++ [(k, v)]

/-- Modelled from the spec: the external store's handling of `add_list`
(§6: `add_list <config>.<id>.<opt>=<entry>` appends an entry to an ordered
list option, creating it when absent). -/
def addListEntry (so : SectionOptions) (k : String) (entry : String) :
    SectionOptions :=
  match getOpt so k with
  | some (UciValue.strList l) => setOpt so k (UciValue.strList (l ++ [entry]))
  | some (UciValue.scalar _) => setOpt so k (UciValue.strList [entry])
  | none => setOpt so k (UciValue.strList [entry])

/-- Modelled from the spec: the external store's handling of `del_list`
(§6: `del_list <config>.<id>.<opt>=<entry>` removes matching entries from an
ordered list option). -/
def delListEntry (so : SectionOptions) (k : String) (entry : String) :
    SectionOptions :=
  match getOpt so k with
  | some (UciValue.strList l) =>
      setOpt so k (UciValue.strList (l.filter (fun e => e != entry)))
  | _ => so

/-- Modelled from the spec: the effect of one executed uci invocation on the
options of the section `<cfg>.<sec>` of the external store, following the
operation grammar of §6 (`set`/`add_list`/`del_list` take
`<config>.<id>.<opt>=<value>`, `delete` takes `<config>.<id>[.<opt>]`);
read-only invocations (`show`, `changes`) and invocations addressing other
sections leave the options unchanged. -/
def applyArgv (cfg sec : String) (so : SectionOptions) (cmd : List String) :
    SectionOptions :=
  match cmd with
  | [_, verb, arg] =>
    match splitOnChar '=' arg with
    | [path, value] =>
      match splitOnChar '.' path with
      | [c, s, o] =>
        if c = cfg ∧ s = sec then
          if verb = "set" then setOpt so o (UciValue.scalar value)
          else if verb = "add_list" then addListEntry so o value
          else if verb = "del_list" then delListEntry so o value
          else so
        else so
      | _ => so
    | [path] =>
      if verb = "delete" then
        match splitOnChar '.' path with
        | [c, s, o] =>
          if c = cfg ∧ s = sec then so.filter (fun kv => kv.1 != o) else so
        | _ => so
      else so
    | _ => so
  | _ => so

/-- Modelled from the spec: applying a whole trace of executed invocations to
the options of section `<cfg>.<sec>`, in order. -/
def applyTrace (cfg sec : String) (so : SectionOptions) (cmds : Exec) :
    SectionOptions :=
  cmds.foldl (applyArgv cfg sec) so

/-- Concrete desired spec of the spec's scenarios 3 and 4:
`config=wireless, section=radio0, options={channel: 11}, commit=false`. -/
def specChannel11 : Params :=
  { config := "wireless", sectionName := some "radio0",
    options := some [("channel", UciValue.scalar "11")] }

/-- Concrete desired spec of the spec's scenario 1 (and of the unit test
`test_present_new_section`): `config=network, type=interface,
options={proto: static, ipaddr: 192.168.1.1}, commit=true`. -/
def specNewInterface : Params :=
  { config := "network", typeName := some "interface",
    options := some [("proto", UciValue.scalar "static"),
                     ("ipaddr", UciValue.scalar "192.168.1.1")],
    commit := true }

/-- Concrete desired spec of the spec's scenario 2 (and of the unit test
`test_absent_existing_section`): `state=absent, config=wireless,
section=radio0, commit=true`. -/
def specDeleteRadio0 : Params :=
  { state := UciState.absent, config := "wireless",
    sectionName := some "radio0", commit := true }

/-- Concrete desired spec with a list-valued option: section `network.lan`,
desired `dns = [x, y, z]`. -/
def specDnsList : Params :=
  { config := "network", sectionName := some "lan",
    options := some [("dns", UciValue.strList ["x", "y", "z"])] }

/-- Current options of section `network.lan` for the list-fidelity scenario:
`dns = [y, x]`. -/
def currentDnsList : SectionOptions := [("dns", UciValue.strList ["y", "x"])]

/-- Raw module arguments providing no location criteria at all: only the
required `config`; no `section`, no `type`, no `position`, no `find`. -/
def rawNoCriteria : RawArgs := { config := some "network" }

/-- Helper: the shared command list after a completed run of `main` is the
incoming list, then the state-dispatch command (`show`/`changes <config>`),
then `commit <config>` exactly when the `commit` parameter is true. -/
theorem uciMain_commands (proc : Process) (p : Params) (cm : Bool)
    (b a : List String) :
    ((uciMain proc p cm b a).1).commands =
      proc.commands ++ [String.intercalate " " [ucibin, stateVerb p.state, p.config]] ++
        (if p.commit then [String.intercalate " " [ucibin, "commit", p.config]] else []) := by
  cases p with
  | mk st cfg sec ty opts pos rep fnd sf cmt =>
    cases st <;> cases cmt <;> cases cm <;>
      simp [uciMain, newContext, run_command, has_changed, do_commit, stateVerb]

/-- Helper: `uci_commands` in the exit payload is exactly the shared command
list left by the run. -/
theorem uciMain_uci_commands (proc : Process) (p : Params) (cm : Bool)
    (b a : List String) :
    (uciMain proc p cm b a).2.2.uci_commands = ((uciMain proc p cm b a).1).commands := by
  cases p with
  | mk st cfg sec ty opts pos rep fnd sf cmt =>
    cases st <;> cases cmt <;> cases cm <;>
      simp [uciMain, newContext, run_command, has_changed, do_commit]

/-- Helper: every completed run reports `changed = true`, because the
state-dispatch command is appended to the shared command list before
`has_changed` compares its length with zero. -/
theorem uciMain_changed_eq_true (proc : Process) (p : Params) (cm : Bool)
    (b a : List String) :
    (uciMain proc p cm b a).2.2.changed = true := by
  cases p with
  | mk st cfg sec ty opts pos rep fnd sf cmt =>
    cases st <;> cases cmt <;> cases cm <;>
      simp [uciMain, newContext, run_command, has_changed, do_commit]

/-- Helper: in check mode the only invocations actually executed are the two
read-only `changes <config>` probes of `__init__` and `has_changed`. -/
theorem uciMain_exec_check (proc : Process) (p : Params) (b a : List String) :
    (uciMain proc p true b a).2.1 =
      [[ucibin, "changes", p.config], [ucibin, "changes", p.config]] := by
  cases p with
  | mk st cfg sec ty opts pos rep fnd sf cmt =>
    cases st <;> cases cmt <;>
      simp [uciMain, newContext, run_command, has_changed, do_commit]

/-- Helper: in apply mode the executed invocations are the changes-before
probe, the state-dispatch command, the changes-after probe, and then
`commit <config>` exactly when the `commit` parameter is true. -/
theorem uciMain_exec_apply (proc : Process) (p : Params) (b a : List String) :
    (uciMain proc p false b a).2.1 =
      [[ucibin, "changes", p.config], [ucibin, stateVerb p.state, p.config],
        [ucibin, "changes", p.config]] ++
        (if p.commit then [[ucibin, "commit", p.config]] else []) := by
  cases p with
  | mk st cfg sec ty opts pos rep fnd sf cmt =>
    cases st <;> cases cmt <;>
      simp [uciMain, newContext, run_command, has_changed, do_commit, stateVerb]

/-- C1: the claim says `changed` is true iff the number of mutating store
operations sequenced is positive, and in particular a run that needs no
operation (desired `channel=11` already current) reports `changed=false`.
The code instead reports `changed=true` on that very run while sequencing
zero mutating operations — both the recorded command list and the executed
trace contain no mutating invocation, yet `changed = true`. -/
theorem changed_true_with_zero_mutating_ops :
    (uciMain ⟨[]⟩ specChannel11 false [] []).2.2.changed = true ∧
    ((uciMain ⟨[]⟩ specChannel11 false [] []).2.2.uci_commands).filter isMutatingCmd = [] ∧
    ((uciMain ⟨[]⟩ specChannel11 false [] []).2.1).filter isMutatingArgv = [] :=
  ⟨rfl, by decide, by decide⟩

/-- C2: the claim says a second immediately-following `state=present` run
against the converged store reports `changed=false` with zero operations
sequenced.  The code's second run (same desired spec, store already
converged, its pending ledger unchanged) again reports `changed=true` and
sequences one command (`show wireless`), exactly like the first run. -/
theorem second_present_run_not_idempotent :
    (uciMain ⟨[]⟩ specChannel11 false [] ["wireless.radio0.channel=11"]).2.2.changed = true ∧
    (uciMain ⟨[]⟩ specChannel11 false ["wireless.radio0.channel=11"]
        ["wireless.radio0.channel=11"]).2.2.changed = true ∧
    (uciMain ⟨[]⟩ specChannel11 false ["wireless.radio0.channel=11"]
        ["wireless.radio0.channel=11"]).2.2.uci_commands =
      ["/usr/bin/uci show wireless"] :=
  ⟨rfl, rfl, rfl⟩

/-- C3: the claim (and the unit test `test_present_new_section`) says this
run emits `CreateSection("interface")`, two `SetOption`s and a `Commit`.
The code instead records only `show network` and `commit network`, and
executes only the two changes probes, the show, and the commit: no `add`
and no `set` invocation is ever produced. -/
theorem present_new_section_emits_no_create_or_set :
    (uciMain ⟨[]⟩ specNewInterface false [] ["network.cfg12345=interface"]).2.2.uci_commands =
      ["/usr/bin/uci show network", "/usr/bin/uci commit network"] ∧
    (uciMain ⟨[]⟩ specNewInterface false [] ["network.cfg12345=interface"]).2.1 =
      [[ucibin, "changes", "network"], [ucibin, "show", "network"],
        [ucibin, "changes", "network"], [ucibin, "commit", "network"]] ∧
    (uciMain ⟨[]⟩ specNewInterface false [] ["network.cfg12345=interface"]).2.2.changed = true :=
  ⟨rfl, rfl, rfl⟩

/-- C4: the claim (and the unit test `test_absent_existing_section`) says a
located `state=absent` run emits exactly one `DeleteSection` and no other
mutating operation.  The code emits no delete at all: it records
`changes wireless` and `commit wireless`, and the only mutating invocation
it executes is the commit. -/
theorem absent_run_emits_no_delete :
    (uciMain ⟨[]⟩ specDeleteRadio0 false [] []).2.2.uci_commands =
      ["/usr/bin/uci changes wireless", "/usr/bin/uci commit wireless"] ∧
    (uciMain ⟨[]⟩ specDeleteRadio0 false [] []).2.1 =
      [[ucibin, "changes", "wireless"], [ucibin, "changes", "wireless"],
        [ucibin, "changes", "wireless"], [ucibin, "commit", "wireless"]] ∧
    ((uciMain ⟨[]⟩ specDeleteRadio0 false [] []).2.1).filter isMutatingArgv =
      [[ucibin, "commit", "wireless"]] :=
  ⟨rfl, rfl, by decide⟩

/-- C5: the claim says the option diff converges a list option to the
desired list `[x, y, z]` from the current `[y, x]`.  The code emits no list
operations at all: applying its whole executed trace to the section leaves
the `dns` option at `[y, x]`, which differs from the desired `[x, y, z]`. -/
theorem list_option_not_converged :
    applyTrace "network" "lan" currentDnsList
        ((uciMain ⟨[]⟩ specDnsList false [] []).2.1) = currentDnsList ∧
    getOpt currentDnsList "dns" = some (UciValue.strList ["y", "x"]) ∧
    getOpt currentDnsList "dns" ≠ some (UciValue.strList ["x", "y", "z"]) :=
  ⟨by decide, by decide, by decide⟩

/-- C6: the claim says a desired spec with no location criteria at all fails
with a ValidationError before any store interaction.  The code's argument
validation accepts `config=network` with no section, type, position or find
(the relational argument constraints are commented out), and the run then
executes three store invocations and exits normally with `changed=true`. -/
theorem no_criteria_accepted_and_store_probed :
    validateArgs rawNoCriteria =
      Except.ok { config := "network" } ∧
    uciMainRaw ⟨[]⟩ rawNoCriteria false [] [] =
      Except.ok (uciMain ⟨[]⟩ { config := "network" } false [] []) ∧
    (uciMain ⟨[]⟩ { config := "network" } false [] []).2.1 =
      [[ucibin, "changes", "network"], [ucibin, "show", "network"],
        [ucibin, "changes", "network"]] :=
  ⟨rfl, rfl, rfl⟩

/-- C7: a check-mode (dry-run) invocation executes only the two read-only
`changes <config>` probes — in particular nothing mutating, so the live
store is unchanged — while the reported `uci_commands` list is exactly the
one an apply-mode run would report, and apply mode executes exactly those
probes plus the recorded commands in order. -/
theorem dry_run_purity (proc : Process) (p : Params) (b a : List String) :
    (uciMain proc p true b a).2.1 =
      [[ucibin, "changes", p.config], [ucibin, "changes", p.config]] ∧
    isMutatingArgv [ucibin, "changes", p.config] = false ∧
    (uciMain proc p true b a).2.2.uci_commands =
      (uciMain proc p false b a).2.2.uci_commands ∧
    (uciMain proc p false b a).2.1 =
      [[ucibin, "changes", p.config], [ucibin, stateVerb p.state, p.config],
        [ucibin, "changes", p.config]] ++
        (if p.commit then [[ucibin, "commit", p.config]] else []) := by
  refine ⟨uciMain_exec_check proc p b a, rfl, ?_, uciMain_exec_apply proc p b a⟩
  rw [uciMain_uci_commands, uciMain_uci_commands, uciMain_commands, uciMain_commands]

/-- C8: with `commit=true` the `commit <config>` invocation is always
sequenced (and, in apply mode, executed) as the last command, independent of
`changed` and of whether any mutating operation was emitted; with
`commit=false` it never is.  The reported command list is exactly the
state-dispatch command followed by the commit command iff `commit=true`,
and the apply-mode executed trace ends with the commit invocation iff
`commit=true`. -/
theorem commit_sequenced_iff_requested (p : Params) (cm : Bool) (b a : List String) :
    (uciMain ⟨[]⟩ p cm b a).2.2.uci_commands =
      [String.intercalate " " [ucibin, stateVerb p.state, p.config]] ++
        (if p.commit then [String.intercalate " " [ucibin, "commit", p.config]] else []) ∧
    (uciMain ⟨[]⟩ p false b a).2.1 =
      [[ucibin, "changes", p.config], [ucibin, stateVerb p.state, p.config],
        [ucibin, "changes", p.config]] ++
        (if p.commit then [[ucibin, "commit", p.config]] else []) := by
  refine ⟨?_, uciMain_exec_apply ⟨[]⟩ p b a⟩
  rw [uciMain_uci_commands, uciMain_commands]
  simp

/-- C9: every completing invocation of `main` reports `changed=true`: the
state dispatch unconditionally records one command (`show <config>` for
`present`, `changes <config>` for `absent`) in the shared command list
before `has_changed` compares that list's length with zero, so the length
is always at least one. -/
theorem changed_always_true (proc : Process) (p : Params) (cm : Bool)
    (b a : List String) :
    (uciMain proc p cm b a).2.2.changed = true ∧
    (uciMain ⟨[]⟩ p cm b a).2.2.uci_commands.head? =
      some (String.intercalate " " [ucibin, stateVerb p.state, p.config]) := by
  refine ⟨uciMain_changed_eq_true proc p cm b a, ?_⟩
  rw [uciMain_uci_commands, uciMain_commands]
  simp

/-- C10: the shared class-level command list survives across contexts in one
process: after any completed run of `main`, the process-wide command list is
nonempty, and a brand-new `UciContext` (whose construction records nothing
in that list) already answers `has_changed = true` against it, even though
this fresh context's own run recorded no command. -/
theorem commands_shared_across_contexts (p1 p2 : Params) (cm1 cm2 : Bool)
    (b1 a1 b2 a2 : List String) :
    0 < ((uciMain ⟨[]⟩ p1 cm1 b1 a1).1).commands.length ∧
    (has_changed (newContext p2 cm2 b2 []).1 (uciMain ⟨[]⟩ p1 cm1 b1 a1).1
        [] a2).2.2 = true := by
  have h := uciMain_commands ⟨[]⟩ p1 cm1 b1 a1
  constructor
  · rw [h]; simp
  · simp [has_changed, newContext, h]

end Uci
